import Mathlib

/-!
Shallow embedding of the `Wildfire` module (`src/wildfire.js`).

The spread engine of the module is embedded as pure Lean functions over an
explicit world (canvas tokens and drawings), a grid interface, an instance
state (the fields a `Wildfire` object carries), and a randomizer modelled as
a stream of entropy values, one consumed per `Roll(...).roll()` call.
The external `canvas.tokens.createMany` persistence call is a parameter that
may fail; `spread`'s promise outcome is recorded in the `ok` field of the
result.
-/

namespace Wildfire

/-- A JavaScript value as it appears in the `Chance` structure: the
`target` field may be a number or a string (the constructor default uses the
string literal `"1"`). -/
inductive JSVal where
  | num (n : Int)
  | str (s : String)
deriving DecidableEq, Repr

/-- Parse a nonempty all-digit character list as a natural number. -/
def digitsToNat (cs : List Char) : Option Nat :=
  match cs with
  | [] => none
  | _ => cs.foldl
      (fun acc c =>
        match acc with
        | none => none
        | some n => if '0' ≤ c ∧ c ≤ '9' then some (n * 10 + (c.toNat - '0'.toNat)) else none)
      (some 0)

/-- Parse a decimal integer literal (optional leading minus sign). -/
def charsToInt (cs : List Char) : Option Int :=
  match cs with
  | '-' :: rest => (digitsToNat rest).map (fun n => -(n : Int))
  | _ => (digitsToNat cs).map (fun n => (n : Int))

/-- JavaScript `Number(...)` coercion as used by the `<` comparison in
`spreadToCell`, restricted to the values that occur: numbers map to
themselves, integer-literal strings parse, anything else is NaN (`none`). -/
def jsToNumber : JSVal → Option Int
  | .num n => some n
  | .str s => charsToInt s.data

/-- The JavaScript comparison `total < target` from `spreadToCell`
(line 276): the number `total` compared against the possibly-string
`target`; a NaN comparison is `false`. -/
def jsLt (total : Nat) (target : JSVal) : Bool :=
  match jsToNumber target with
  | some n => decide ((total : Int) < n)
  | none => false

/-- A parsed dice formula `NdM`. -/
structure Formula where
  num : Nat
  faces : Nat
deriving DecidableEq, Repr

/-- Split a character list at the first `'d'`; `none` when no `'d'` occurs. -/
def splitAtD : List Char → Option (List Char × List Char)
  | [] => none
  | c :: cs =>
    if c = 'd' then some ([], cs)
    else (splitAtD cs).map (fun r => (c :: r.1, r.2))

/-- Parse a simple `NdM` dice-expression string (the forms the module
uses: `"1d1"`, `"1d6"`, ...). Zero dice or zero faces is rejected. -/
def parseFormula (s : String) : Option Formula :=
  match splitAtD s.data with
  | some (n, f) =>
    match digitsToNat n, digitsToNat f with
    | some nn, some ff => if nn = 0 ∨ ff = 0 then none else some ⟨nn, ff⟩
    | _, _ => none
  | none => none

/-- Total of one evaluation of a parsed formula from one entropy value:
ranges over exactly the achievable totals `[num, num * faces]`. -/
def rollTotal (fm : Formula) (e : Nat) : Nat :=
  fm.num + e % (fm.num * (fm.faces - 1) + 1)

/-- `new Roll(formula).roll().total` for a formula string, consuming one
entropy value; an unparseable formula is modelled as total 0. -/
def rollTotalOf (formula : String) (e : Nat) : Nat :=
  match parseFormula formula with
  | some fm => rollTotal fm e
  | none => 0

/-- The `Chance` structure of the module: a roll formula and a target,
the target being whatever JS value was supplied (number or string). -/
structure Chance where
  formula : String
  target : JSVal
deriving DecidableEq, Repr

/-- The data of a token on the canvas (or a pending new fire): its pixel
anchor and its `flags.wildfire.fire` marker. -/
structure TokenObj where
  x : Int
  y : Int
  fireFlag : Bool
deriving DecidableEq, Repr

/-- The data of a drawing: pixel anchor (`data.x`/`data.y`), the extent
the code reads (`area.width`/`area.height`), and the
`flags.wildfire.flammable` marker. -/
structure AreaObj where
  dataX : Int
  dataY : Int
  width : Int
  height : Int
  flammableFlag : Bool
deriving DecidableEq, Repr

/-- The external scene state: placed tokens and drawings. -/
structure World where
  canvasTokens : List TokenObj
  drawings : List AreaObj
deriving DecidableEq, Repr

/-- A grid cell address `[row, col]`. -/
abbrev Cell := Int × Int

/-- The external grid interface (`canvas.grid.grid`): cell size `w`,
`getPixelsFromGridPosition`, `getGridPositionFromPixels`, `getNeighbors`. -/
structure Grid where
  size : Int
  pixelPos : Cell → Int × Int
  gridPos : Int × Int → Cell
  neighbors : Cell → List Cell

/-- The mutable fields of a `Wildfire` instance: the `_token` template
data, the `chance` policy, the pending `newFires`, and the `spreading`
guard flag. -/
structure WFState where
  tokenData : TokenObj
  chance : Chance
  newFires : List TokenObj
  spreading : Bool
deriving DecidableEq, Repr

/-- The constructor's default `chance` argument:
`{ formula: "1d1", target: "1" }` — note the target is the STRING `"1"`. -/
def defaultChance : Chance := { formula := "1d1", target := .str "1" }

/-- `new Wildfire(prototype, chance)`: stores a copy of the prototype's
data as the template, the chance, an empty `newFires`, `spreading = false`. -/
def mkWildfire (prototypeData : TokenObj) (chance : Chance) : WFState :=
  { tokenData := prototypeData, chance := chance, newFires := [], spreading := false }

/-- `new Wildfire(prototype)` with the defaulted chance argument. -/
def mkWildfireDefault (prototypeData : TokenObj) : WFState :=
  mkWildfire prototypeData defaultChance

/-- `get realFires()`: all canvas tokens with the `wildfire.fire` flag. -/
def realFires (w : World) : List TokenObj :=
  w.canvasTokens.filter (fun t => t.fireFlag)

/-- `get fires()`: real fires concatenated with the pending `newFires`. -/
def fires (w : World) (s : WFState) : List TokenObj :=
  realFires w ++ s.newFires

/-- `get flammableAreas()`: all drawings with the `wildfire.flammable` flag. -/
def flammableAreas (w : World) : List AreaObj :=
  w.drawings.filter (fun a => a.flammableFlag)

/-- `isBurning(cell)`: some fire's anchor equals the cell's top-left pixel
position exactly. -/
def isBurning (g : Grid) (w : World) (s : WFState) (cell : Cell) : Bool :=
  let p := g.pixelPos cell
  (fires w s).any (fun t => t.x == p.1 && t.y == p.2)

/-- The body of `areaContains` as a function of the cell's top-left pixel
anchor `p` and the grid size: the four-condition rectangle exclusion test of
lines 228–233, with `tl1 = (area.dataX, area.dataY)`, `tl2 = p`,
`br1 = tl1 + (area.width, area.height)`, `br2 = p + (size, size)`. -/
def areaContainsAt (area : AreaObj) (p : Int × Int) (size : Int) : Bool :=
  !(decide (area.dataX ≥ p.1 + size) ||
    decide (p.1 ≥ area.dataX + area.width) ||
    decide (area.dataY ≥ p.2 + size) ||
    decide (p.2 ≥ area.dataY + area.height))

/-- `areaContains(area, cell)`: the exclusion test applied at the cell's
pixel position with the cell as a `gridSize` square. -/
def areaContains (g : Grid) (area : AreaObj) (cell : Cell) : Bool :=
  areaContainsAt area (g.pixelPos cell) g.size

/-- Whether the pixel anchor `p` (as a `gridSize` square) meets some
flammable area: `isInFlammableArea` as a function of the cell's anchor. -/
def flamAt (g : Grid) (w : World) (p : Int × Int) : Bool :=
  (flammableAreas w).any (fun area => areaContainsAt area p g.size)

/-- `isInFlammableArea(cell)`: some flammable drawing's area contains the cell. -/
def isInFlammableArea (g : Grid) (w : World) (cell : Cell) : Bool :=
  (flammableAreas w).any (fun area => areaContains g area cell)

/-- `isFlammable(cell)`: not burning and inside a flammable area. -/
def isFlammable (g : Grid) (w : World) (s : WFState) (cell : Cell) : Bool :=
  !isBurning g w s cell && isInFlammableArea g w cell

/-- `light(cell)`: push a copy of the template, re-anchored at the cell's
pixel position, onto `newFires`. -/
def light (g : Grid) (s : WFState) (cell : Cell) : WFState :=
  let p := g.pixelPos cell
  { s with newFires := s.newFires ++ [{ s.tokenData with x := p.1, y := p.2 }] }

/-- `spreadToCell(cell, chance)`: return early if the cell is not
flammable (no roll made); otherwise roll once (consume one entropy value),
return if the total is below the target, else light the cell. The `Nat`
component threads the randomizer stream index. -/
def spreadToCell (g : Grid) (w : World) (chance : Chance) (rng : Nat → Nat)
    (si : WFState × Nat) (cell : Cell) : WFState × Nat :=
  if !isFlammable g w si.1 cell then si
  else if jsLt (rollTotalOf chance.formula (rng si.2)) chance.target then (si.1, si.2 + 1)
  else (light g si.1 cell, si.2 + 1)

/-- `spreadToNeighbors(fire, chance)`: locate the fire's cell and run
`spreadToCell` over each neighbor in order. -/
def spreadToNeighbors (g : Grid) (w : World) (chance : Chance) (rng : Nat → Nat)
    (si : WFState × Nat) (fire : TokenObj) : WFState × Nat :=
  let cell := g.gridPos (fire.x, fire.y)
  (g.neighbors cell).foldl (spreadToCell g w chance rng) si

/-- The evaluation phase of `spread` (line 306):
`this.realFires.forEach(fire => this.spreadToNeighbors(fire, chance))`. -/
def runSpreadEval (g : Grid) (w : World) (chance : Chance) (rng : Nat → Nat)
    (s : WFState) (i : Nat) : WFState × Nat :=
  (realFires w).foldl (spreadToNeighbors g w chance rng) (s, i)

/-- Result of one `spread()` call: the world and instance state afterwards,
the randomizer index, the batch handed to `createMany` (`none` when the
guard returned before any call), and whether the returned promise
fulfilled (`ok = false` models a propagated rejection). -/
structure StepResult where
  world : World
  state : WFState
  rngIdx : Nat
  batch : Option (List TokenObj)
  ok : Bool
deriving DecidableEq, Repr

/-- `spread(chance)`: guard on `spreading`; set the guard; evaluate all
real fires' neighbors; `await createNewFires()` — the external `createMany`
is a parameter returning success and the new world; on success `newFires`
is cleared and the guard released; on failure the rejection propagates and
the statements after the `await` (clearing `newFires`, releasing the
guard) never run. -/
def spread (g : Grid) (createMany : World → List TokenObj → Bool × World)
    (rng : Nat → Nat) (w : World) (s : WFState) (i : Nat) (chance : Chance) : StepResult :=
  if s.spreading then ⟨w, s, i, none, true⟩
  else
    let r := runSpreadEval g w chance rng { s with spreading := true } i
    let cw := createMany w r.1.newFires
    if cw.1 then ⟨cw.2, { r.1 with newFires := [], spreading := false }, r.2, some r.1.newFires, true⟩
    else ⟨cw.2, r.1, r.2, some r.1.newFires, false⟩

/-- `spread()` with the defaulted chance argument `this.chance`. -/
def spreadDefault (g : Grid) (createMany : World → List TokenObj → Bool × World)
    (rng : Nat → Nat) (w : World) (s : WFState) (i : Nat) : StepResult :=
  spread g createMany rng w s i s.chance

/-- The instance state as it stands at the `await createNewFires()` point
of a guard-passing `spread` call: after the whole evaluation phase. -/
def evalState (g : Grid) (w : World) (chance : Chance) (rng : Nat → Nat)
    (s : WFState) (i : Nat) : WFState :=
  (runSpreadEval g w chance rng { s with spreading := true } i).1

/-! ### Generic axis-aligned rectangles (for the containment-test claim) -/

/-- A generic axis-aligned rectangle: top-left anchor and extent. -/
structure Rect where
  x : Int
  y : Int
  w : Int
  h : Int
deriving DecidableEq, Repr

/-- The four-condition exclusion test of `areaContains`, stated on two
generic rectangles in the code's order of conditions. -/
def rectsIntersect (r1 r2 : Rect) : Bool :=
  !(decide (r1.x ≥ r2.x + r2.w) ||
    decide (r2.x ≥ r1.x + r1.w) ||
    decide (r1.y ≥ r2.y + r2.h) ||
    decide (r2.y ≥ r1.y + r1.h))

/-- The rectangle of a drawing as `areaContains` reads it. -/
def areaRect (area : AreaObj) : Rect :=
  ⟨area.dataX, area.dataY, area.width, area.height⟩

/-- The rectangle of a grid cell: its pixel anchor and the grid size. -/
def cellRect (g : Grid) (cell : Cell) : Rect :=
  ⟨(g.pixelPos cell).1, (g.pixelPos cell).2, g.size, g.size⟩

/-- `r1` is entirely to the left of `r2`, a touching shared edge counting
as separation. -/
def leftSep (r1 r2 : Rect) : Prop := r1.x + r1.w ≤ r2.x

/-- `r1` is entirely above `r2`, a touching shared edge counting as
separation. -/
def aboveSep (r1 r2 : Rect) : Prop := r1.y + r1.h ≤ r2.y

/-! ### Invariant predicates -/

/-- Two token records anchored at the same pixel position. -/
def anchorEq (t u : TokenObj) : Bool := t.x == u.x && t.y == u.y

/-- No two entries of the list share a pixel anchor. -/
def noDupAnchors : List TokenObj → Bool
  | [] => true
  | t :: ts => !ts.any (anchorEq t) && noDupAnchors ts

/-- No entry of the list shares a pixel anchor with a real fire. -/
def disjointReal (w : World) (l : List TokenObj) : Bool :=
  !l.any (fun t => (realFires w).any (anchorEq t))

/-- The no-double-ignition invariant on the pending set: anchors pairwise
distinct and disjoint from the real fires' anchors. -/
def pendingInv (w : World) (s : WFState) : Bool :=
  noDupAnchors s.newFires && disjointReal w s.newFires

/-- One evaluation state extends another: same instance fields except that
`newFires` has grown by a suffix of tokens all anchored inside flammable
areas. -/
def extendsFlam (g : Grid) (w : World) (si sj : WFState × Nat) : Prop :=
  ∃ l, sj.1 = { si.1 with newFires := si.1.newFires ++ l } ∧
    ∀ t ∈ l, flamAt g w (t.x, t.y) = true

/-! ### Concrete scenario used by counterexamples and witnesses -/

/-- A square grid of cell size 50 with the standard square-grid pixel
conversions and eight-cell neighborhood. -/
def sqGrid : Grid where
  size := 50
  pixelPos := fun rc => (rc.2 * 50, rc.1 * 50)
  gridPos := fun xy => (xy.2.ediv 50, xy.1.ediv 50)
  neighbors := fun rc =>
    [(rc.1 - 1, rc.2 - 1), (rc.1 - 1, rc.2), (rc.1 - 1, rc.2 + 1),
     (rc.1, rc.2 - 1), (rc.1, rc.2 + 1),
     (rc.1 + 1, rc.2 - 1), (rc.1 + 1, rc.2), (rc.1 + 1, rc.2 + 1)]

/-- A `createMany` adapter that always succeeds, appending the batch to the
canvas. -/
def cmOK : World → List TokenObj → Bool × World :=
  fun w l => (true, { w with canvasTokens := w.canvasTokens ++ l })

/-- A `createMany` adapter whose call always fails (the persistence
promise rejects), leaving the canvas as it was. -/
def cmFail : World → List TokenObj → Bool × World :=
  fun w _ => (false, w)

/-- Two fire tokens at cells `(0,0)` and `(0,2)`; one flammable drawing
covering exactly cell `(0,1)`, the common neighbor of both fires. -/
def wTwoFires : World :=
  { canvasTokens := [⟨0, 0, true⟩, ⟨100, 0, true⟩],
    drawings := [⟨50, 0, 50, 50, true⟩] }

/-- A chance of `1d2` against target 2: succeeds on odd entropy only. -/
def chHalf : Chance := { formula := "1d2", target := .num 2 }

/-- A chance whose target exceeds the formula's maximum total. -/
def chImpossible : Chance := { formula := "1d6", target := .num 7 }

/-- A chance with target 0: every roll meets it. -/
def chZero : Chance := { formula := "1d6", target := .num 0 }

/-- An instance whose template is the fire at the origin. -/
def sTwoFires : WFState := mkWildfire ⟨0, 0, true⟩ chHalf

/-- One fire token anchored at pixel `(60, 60)` — strictly inside cell
`(1,1)` (pixels `[50,100) × [50,100)`) but not at its top-left corner —
with a flammable drawing covering that cell. -/
def wInterior : World :=
  { canvasTokens := [⟨60, 60, true⟩],
    drawings := [⟨50, 50, 50, 50, true⟩] }

/-- An instance over `wInterior` with the constructor-default chance. -/
def sInterior : WFState := mkWildfireDefault ⟨60, 60, true⟩

/-!
### Heap model of `duplicate` and the `token` accessors

For the template-isolation claim the relevant behavior is aliasing:
Foundry's `duplicate` is a deep JSON copy, and the `token` getter/setter
(lines 116–117) apply it on every read and on every write. Token data is a
two-level object — scalar fields plus a nested `flags` object — so the heap
holds token nodes (scalars plus a reference to a flags object) and flags
objects, at numeric addresses. Mutating the source entity after
construction is an in-place update at an address of the pre-existing
object graph.
-/

/-- The nested `flags` object of token data (`flags.wildfire.fire`). -/
structure FlagsObj where
  wildfireFire : Bool
deriving DecidableEq, Repr

/-- A token-data node on the heap: scalar fields plus a reference to its
`flags` object. -/
structure TokenNode where
  img : String
  name : String
  x : Int
  y : Int
  flagsRef : Nat
deriving DecidableEq, Repr

/-- A fully dereferenced token-data value. -/
structure TokenValue where
  img : String
  name : String
  x : Int
  y : Int
  flags : FlagsObj
deriving DecidableEq, Repr

/-- The JS object heap restricted to the shapes used: token nodes and
flags objects at numeric addresses, plus the next fresh address. -/
structure Heap where
  tokens : List (Nat × TokenNode)
  flagObjs : List (Nat × FlagsObj)
  next : Nat
deriving DecidableEq, Repr

/-- Every allocated address is below the allocation counter. -/
def Heap.wf (h : Heap) : Prop :=
  (∀ p ∈ h.tokens, p.1 < h.next) ∧ (∀ p ∈ h.flagObjs, p.1 < h.next)

/-- Read the token-data value rooted at address `a`, following the flags
reference. -/
def resolveTok (h : Heap) (a : Nat) : Option TokenValue :=
  match h.tokens.lookup a with
  | none => none
  | some n =>
    match h.flagObjs.lookup n.flagsRef with
    | none => none
    | some fv => some ⟨n.img, n.name, n.x, n.y, fv⟩

/-- The heap after materializing a deep copy of the value `v`: a fresh
flags object at `h.next` and a fresh token node at `h.next + 1`
referencing it, existing bindings untouched. -/
def dupHeap (h : Heap) (v : TokenValue) : Heap :=
  { tokens := (h.next + 1, ⟨v.img, v.name, v.x, v.y, h.next⟩) :: h.tokens,
    flagObjs := (h.next, v.flags) :: h.flagObjs,
    next := h.next + 2 }

/-- `duplicate(data)` on a token-data object: a deep copy — a fresh flags
object and a fresh token node referencing it, existing bindings untouched. -/
def duplicateTok (h : Heap) (a : Nat) : Option (Heap × Nat) :=
  match resolveTok h a with
  | none => none
  | some v => some (dupHeap h v, h.next + 1)

/-- The `token` setter (`this._token = duplicate(tkn.data)`): the stored
template is a fresh deep copy of the source's data; returns the new heap
and the address held in `_token`. -/
def setTokenAccessor (h : Heap) (srcAddr : Nat) : Option (Heap × Nat) :=
  duplicateTok h srcAddr

/-- The `token` getter (`return duplicate(this._token)`): every read hands
out a fresh deep copy of the stored template. -/
def getTokenAccessor (h : Heap) (tokAddr : Nat) : Option (Heap × Nat) :=
  duplicateTok h tokAddr

/-- In-place mutation of the token node at address `a` (e.g. assigning
`tkn.data.img = ...` on the original source entity). -/
def mutateTokenAt (h : Heap) (a : Nat) (f : TokenNode → TokenNode) : Heap :=
  { h with tokens := h.tokens.map (fun p => if p.1 == a then (p.1, f p.2) else p) }

/-- In-place mutation of the flags object at address `a` (e.g. assigning
`tkn.data.flags.wildfire.fire = ...` on the original source entity). -/
def mutateFlagsAt (h : Heap) (a : Nat) (f : FlagsObj → FlagsObj) : Heap :=
  { h with flagObjs := h.flagObjs.map (fun p => if p.1 == a then (p.1, f p.2) else p) }

/-- A concrete initial heap: one source token at address 1 whose flags
object is at address 0. -/
def exHeap : Heap :=
  { tokens := [(1, ⟨"fire.png", "Fire", 0, 0, 0⟩)],
    flagObjs := [(0, ⟨true⟩)],
    next := 2 }

/-! ## Lemmas -/

/-- A property preserved by every fold step holds after the whole fold. -/
theorem foldl_preserve {α β : Type} (f : β → α → β) {P : β → Prop}
    (hf : ∀ b a, P b → P (f b a)) :
    ∀ (xs : List α) (b : β), P b → P (xs.foldl f b)
  | [], _, hb => hb
  | a :: xs, b, hb => foldl_preserve f hf xs (f b a) (hf b a hb)

/-- A property established by processing the element `x` and preserved by
every fold step holds after folding any list containing `x`. -/
theorem foldl_establish {α β : Type} (f : β → α → β) {B : β → Prop}
    (hpres : ∀ b a, B b → B (f b a)) (x : α) (hx : ∀ b, B (f b x)) :
    ∀ (xs : List α) (b : β), x ∈ xs → B (xs.foldl f b)
  | [], _, hmem => absurd hmem (List.not_mem_nil x)
  | a :: xs, b, hmem => by
    rcases List.mem_cons.mp hmem with h | h
    · subst h
      exact foldl_preserve f hpres xs (f b x) (hx b)
    · exact foldl_establish f hpres x hx xs (f b a) h

theorem extendsFlam_refl (g : Grid) (w : World) (si : WFState × Nat) :
    extendsFlam g w si si :=
  ⟨[], by simp, by simp⟩

theorem extendsFlam_trans (g : Grid) (w : World) {s1 s2 s3 : WFState × Nat}
    (h12 : extendsFlam g w s1 s2) (h23 : extendsFlam g w s2 s3) :
    extendsFlam g w s1 s3 := by
  obtain ⟨l1, h1, hf1⟩ := h12
  obtain ⟨l2, h2, hf2⟩ := h23
  refine ⟨l1 ++ l2, ?_, ?_⟩
  · rw [h2, h1]
    simp
  · intro t ht
    rcases List.mem_append.mp ht with h | h
    · exact hf1 t h
    · exact hf2 t h

/-- Any fold whose steps are `extendsFlam` extensions is itself one. -/
theorem foldl_extendsFlam {α : Type} (g : Grid) (w : World)
    (f : (WFState × Nat) → α → WFState × Nat)
    (hstep : ∀ si a, extendsFlam g w si (f si a)) :
    ∀ (xs : List α) (si : WFState × Nat), extendsFlam g w si (xs.foldl f si)
  | [], si => extendsFlam_refl g w si
  | a :: xs, si =>
    extendsFlam_trans g w (hstep si a) (foldl_extendsFlam g w f hstep xs (f si a))

theorem isFlammable_true_iff {g : Grid} {w : World} {s : WFState} {c : Cell} :
    isFlammable g w s c = true ↔
      isBurning g w s c = false ∧ isInFlammableArea g w c = true := by
  simp [isFlammable]

theorem isInFlammableArea_eq_flamAt {g : Grid} {w : World} {c : Cell} :
    isInFlammableArea g w c = flamAt g w (g.pixelPos c) := rfl

theorem spreadToCell_not_flammable {g : Grid} {w : World} {ch : Chance} {rng : Nat → Nat}
    {s : WFState} {i : Nat} {c : Cell} (h : isFlammable g w s c = false) :
    spreadToCell g w ch rng (s, i) c = (s, i) := by
  simp [spreadToCell, h]

theorem spreadToCell_roll_fail {g : Grid} {w : World} {ch : Chance} {rng : Nat → Nat}
    {s : WFState} {i : Nat} {c : Cell} (h : isFlammable g w s c = true)
    (hr : jsLt (rollTotalOf ch.formula (rng i)) ch.target = true) :
    spreadToCell g w ch rng (s, i) c = (s, i + 1) := by
  simp [spreadToCell, h, hr]

theorem spreadToCell_roll_light {g : Grid} {w : World} {ch : Chance} {rng : Nat → Nat}
    {s : WFState} {i : Nat} {c : Cell} (h : isFlammable g w s c = true)
    (hr : jsLt (rollTotalOf ch.formula (rng i)) ch.target = false) :
    spreadToCell g w ch rng (s, i) c = (light g s c, i + 1) := by
  simp [spreadToCell, h, hr]

theorem light_eq {g : Grid} {s : WFState} {c : Cell} :
    light g s c = { s with newFires :=
      s.newFires ++ [{ s.tokenData with x := (g.pixelPos c).1, y := (g.pixelPos c).2 }] } := rfl

theorem isBurning_iff {g : Grid} {w : World} {s : WFState} {c : Cell} :
    isBurning g w s c = true ↔
      ∃ t ∈ fires w s, t.x = (g.pixelPos c).1 ∧ t.y = (g.pixelPos c).2 := by
  simp [isBurning, List.any_eq_true]

theorem isBurning_extend {g : Grid} {w : World} {s : WFState} {c : Cell}
    (l : List TokenObj) (h : isBurning g w s c = true) :
    isBurning g w { s with newFires := s.newFires ++ l } c = true := by
  simp only [isBurning, fires, List.any_eq_true] at h ⊢
  obtain ⟨t, ht, hp⟩ := h
  refine ⟨t, ?_, hp⟩
  rcases List.mem_append.mp ht with h' | h'
  · exact List.mem_append.mpr (Or.inl h')
  · exact List.mem_append.mpr (Or.inr (List.mem_append.mpr (Or.inl h')))

theorem isBurning_light_self {g : Grid} {w : World} {s : WFState} {c : Cell} :
    isBurning g w (light g s c) c = true := by
  simp [isBurning, light, fires, List.any_eq_true]

/-- `spreadToCell` only appends flammably-anchored tokens to `newFires`
and leaves the rest of the instance state alone. -/
theorem spreadToCell_extendsFlam (g : Grid) (w : World) (ch : Chance) (rng : Nat → Nat)
    (si : WFState × Nat) (c : Cell) :
    extendsFlam g w si (spreadToCell g w ch rng si c) := by
  obtain ⟨s, i⟩ := si
  by_cases h : isFlammable g w s c = true
  · by_cases hr : jsLt (rollTotalOf ch.formula (rng i)) ch.target = true
    · rw [spreadToCell_roll_fail h hr]
      exact ⟨[], by simp, by simp⟩
    · rw [spreadToCell_roll_light h (Bool.not_eq_true _ ▸ hr)]
      refine ⟨[{ s.tokenData with x := (g.pixelPos c).1, y := (g.pixelPos c).2 }],
        light_eq, ?_⟩
      intro t ht
      simp only [List.mem_singleton] at ht
      subst ht
      have hfl := (isFlammable_true_iff.mp h).2
      rw [isInFlammableArea_eq_flamAt] at hfl
      simpa using hfl
  · rw [spreadToCell_not_flammable (Bool.not_eq_true _ ▸ h)]
    exact ⟨[], by simp, by simp⟩

theorem spreadToNeighbors_extendsFlam (g : Grid) (w : World) (ch : Chance)
    (rng : Nat → Nat) (si : WFState × Nat) (f : TokenObj) :
    extendsFlam g w si (spreadToNeighbors g w ch rng si f) :=
  foldl_extendsFlam g w _ (spreadToCell_extendsFlam g w ch rng) _ si

theorem runSpreadEval_extendsFlam (g : Grid) (w : World) (ch : Chance)
    (rng : Nat → Nat) (s : WFState) (i : Nat) :
    extendsFlam g w (s, i) (runSpreadEval g w ch rng s i) :=
  foldl_extendsFlam g w _ (fun si f => spreadToNeighbors_extendsFlam g w ch rng si f)
    (realFires w) (s, i)

/-- The evaluation phase only appends flammably-anchored tokens to
`newFires`, every other instance field staying put. -/
theorem runSpreadEval_decomp (g : Grid) (w : World) (ch : Chance)
    (rng : Nat → Nat) (s : WFState) (i : Nat) :
    ∃ l, (runSpreadEval g w ch rng s i).1 = { s with newFires := s.newFires ++ l } ∧
      ∀ t ∈ l, flamAt g w (t.x, t.y) = true :=
  runSpreadEval_extendsFlam g w ch rng s i

/-- The `spreading` flag set at step entry is still set at the commit
point (the evaluation phase never touches it). -/
theorem evalState_spreading (g : Grid) (w : World) (ch : Chance)
    (rng : Nat → Nat) (s : WFState) (i : Nat) :
    (evalState g w ch rng s i).spreading = true := by
  obtain ⟨l, hl, -⟩ := runSpreadEval_decomp g w ch rng { s with spreading := true } i
  rw [evalState, hl]

theorem spread_guard_noop {g : Grid} {cm : World → List TokenObj → Bool × World}
    {rng : Nat → Nat} {w : World} {s : WFState} {i : Nat} {ch : Chance}
    (h : s.spreading = true) :
    spread g cm rng w s i ch = ⟨w, s, i, none, true⟩ := by
  simp [spread, h]

theorem spread_commit_fail {g : Grid} {cm : World → List TokenObj → Bool × World}
    {rng : Nat → Nat} {w : World} {s : WFState} {i : Nat} {ch : Chance}
    (h0 : s.spreading = false)
    (hc : (cm w (evalState g w ch rng s i).newFires).1 = false) :
    spread g cm rng w s i ch =
      ⟨(cm w (evalState g w ch rng s i).newFires).2,
       evalState g w ch rng s i,
       (runSpreadEval g w ch rng { s with spreading := true } i).2,
       some (evalState g w ch rng s i).newFires, false⟩ := by
  simp only [spread, h0, evalState] at hc ⊢
  simp [hc]

theorem spread_commit_ok {g : Grid} {cm : World → List TokenObj → Bool × World}
    {rng : Nat → Nat} {w : World} {s : WFState} {i : Nat} {ch : Chance}
    (h0 : s.spreading = false)
    (hc : (cm w (evalState g w ch rng s i).newFires).1 = true) :
    spread g cm rng w s i ch =
      ⟨(cm w (evalState g w ch rng s i).newFires).2,
       { evalState g w ch rng s i with newFires := [], spreading := false },
       (runSpreadEval g w ch rng { s with spreading := true } i).2,
       some (evalState g w ch rng s i).newFires, true⟩ := by
  simp only [spread, h0, evalState] at hc ⊢
  simp [hc]

/-- C7: a `spread()` call made while the `spreading` flag is true returns
immediately without raising (the promise fulfills), without calling the
persistence adapter, without drawing from the randomizer, and with the
world and every instance field (`newFires`, `spreading`, `chance`,
template) unchanged. -/
theorem spread_while_spreading_noop (g : Grid) (cm : World → List TokenObj → Bool × World)
    (rng : Nat → Nat) (w : World) (s : WFState) (i : Nat) (ch : Chance)
    (h : s.spreading = true) :
    spread g cm rng w s i ch = ⟨w, s, i, none, true⟩ :=
  spread_guard_noop h

/-- Witness for C7 at a concrete in-flight state. -/
theorem spread_while_spreading_noop_witness :
    spread sqGrid cmOK (fun i => i) wTwoFires { sTwoFires with spreading := true } 0 chHalf =
      ⟨wTwoFires, { sTwoFires with spreading := true }, 0, none, true⟩ :=
  spread_while_spreading_noop sqGrid cmOK (fun i => i) wTwoFires
    { sTwoFires with spreading := true } 0 chHalf rfl

/-- C1 counterexample: a concrete `spread()` whose commit fails. The
rejection propagates (`ok = false`) but the `spreading` flag is NOT reset:
it is still `true` after the call, contradicting the claim that the guard
is released regardless of commit outcome (the code has no `finally`;
`this.spreading = false` sits after the `await` that throws). -/
theorem spread_commit_failure_counterexample :
    (spread sqGrid cmFail (fun i => i) wTwoFires sTwoFires 0 chHalf).ok = false ∧
    (spread sqGrid cmFail (fun i => i) wTwoFires sTwoFires 0 chHalf).state.spreading = true := by
  have hres := @spread_commit_fail sqGrid cmFail (fun i => i) wTwoFires sTwoFires 0 chHalf rfl rfl
  rw [hres]
  exact ⟨rfl, evalState_spreading sqGrid wTwoFires chHalf (fun i => i) sTwoFires 0⟩

/-- C1 (amended): if the commit call of a `spread()` step fails, the
failure propagates to the caller, but the `spreading` guard remains `true`,
so every subsequent `spread()` call on the same instance is a no-op. -/
theorem spread_commit_failure_guard_stays (g : Grid)
    (cm : World → List TokenObj → Bool × World) (rng : Nat → Nat)
    (w : World) (s : WFState) (i : Nat) (ch : Chance)
    (h0 : s.spreading = false)
    (hfail : (cm w (evalState g w ch rng s i).newFires).1 = false) :
    (spread g cm rng w s i ch).ok = false ∧
    (spread g cm rng w s i ch).state.spreading = true ∧
    ∀ (g2 : Grid) (cm2 : World → List TokenObj → Bool × World) (rng2 : Nat → Nat)
      (w2 : World) (i2 : Nat) (ch2 : Chance),
      spread g2 cm2 rng2 w2 (spread g cm rng w s i ch).state i2 ch2 =
        ⟨w2, (spread g cm rng w s i ch).state, i2, none, true⟩ := by
  have hres := spread_commit_fail h0 hfail
  rw [hres]
  refine ⟨rfl, evalState_spreading g w ch rng s i, ?_⟩
  intro g2 cm2 rng2 w2 i2 ch2
  exact spread_guard_noop (evalState_spreading g w ch rng s i)

/-- A guard-passing `spread` always hands `createMany` precisely the
`newFires` accumulated by the evaluation phase. -/
theorem spread_batch {g : Grid} {cm : World → List TokenObj → Bool × World}
    {rng : Nat → Nat} {w : World} {s : WFState} {i : Nat} {ch : Chance}
    (h0 : s.spreading = false) :
    (spread g cm rng w s i ch).batch = some (evalState g w ch rng s i).newFires := by
  by_cases hc : (cm w (evalState g w ch rng s i).newFires).1 = true
  · rw [spread_commit_ok h0 hc]
  · rw [spread_commit_fail h0 (Bool.not_eq_true _ ▸ hc)]

/-- C3: a candidate cell that intersects no flammable region is never added
to the pending-ignition set, regardless of the chance, the target, and the
roll outcomes: the tokens anchored at that cell's pixel position in the
batch handed to the commit are exactly the ones already pending at step
entry. -/
theorem no_ignition_outside_flammable (g : Grid)
    (cm : World → List TokenObj → Bool × World) (rng : Nat → Nat)
    (w : World) (s : WFState) (i : Nat) (ch : Chance) (c : Cell)
    (h0 : s.spreading = false)
    (hnf : isInFlammableArea g w c = false) :
    ((spread g cm rng w s i ch).batch.getD []).filter
        (fun t => t.x == (g.pixelPos c).1 && t.y == (g.pixelPos c).2) =
      s.newFires.filter
        (fun t => t.x == (g.pixelPos c).1 && t.y == (g.pixelPos c).2) := by
  rw [spread_batch h0]
  obtain ⟨l, hl, hfl⟩ :=
    runSpreadEval_decomp g w ch rng { s with spreading := true } i
  have : (evalState g w ch rng s i).newFires = s.newFires ++ l := by
    rw [evalState, hl]
  rw [Option.getD_some, this, List.filter_append]
  have hnil : l.filter
      (fun t => t.x == (g.pixelPos c).1 && t.y == (g.pixelPos c).2) = [] := by
    rw [List.filter_eq_nil_iff]
    intro t ht hmatch
    simp only [Bool.and_eq_true, beq_iff_eq] at hmatch
    have hanchor : ((t.x, t.y) : Int × Int) = g.pixelPos c := by
      rw [hmatch.1, hmatch.2]
    have := hfl t ht
    rw [hanchor] at this
    rw [isInFlammableArea_eq_flamAt] at hnf
    rw [this] at hnf
    cases hnf
  rw [hnil, List.append_nil]

/-- Witness for C3: the cell `(5,5)` of the two-fire scenario is outside
the flammable drawing, so a full certain-to-spread step adds nothing there. -/
theorem no_ignition_outside_flammable_witness :
    ((spread sqGrid cmOK (fun i => i) wTwoFires sTwoFires 0 chZero).batch.getD []).filter
        (fun t => t.x == (sqGrid.pixelPos (5, 5)).1 && t.y == (sqGrid.pixelPos (5, 5)).2) =
      sTwoFires.newFires.filter
        (fun t => t.x == (sqGrid.pixelPos (5, 5)).1 && t.y == (sqGrid.pixelPos (5, 5)).2) :=
  no_ignition_outside_flammable sqGrid cmOK (fun i => i) wTwoFires sTwoFires 0 chZero
    (5, 5) rfl (by decide)

theorem noDupAnchors_snoc {A : List TokenObj} {tok : TokenObj}
    (h1 : noDupAnchors A = true)
    (h2 : ∀ t ∈ A, ¬(t.x = tok.x ∧ t.y = tok.y)) :
    noDupAnchors (A ++ [tok]) = true := by
  induction A with
  | nil => simp [noDupAnchors, anchorEq]
  | cons t ts ih =>
    simp only [noDupAnchors, Bool.and_eq_true, Bool.not_eq_true'] at h1
    have ih' := ih h1.2 (fun u hu => h2 u (List.mem_cons_of_mem t hu))
    have h2t := h2 t (List.mem_cons_self t ts)
    simp only [List.cons_append, noDupAnchors, Bool.and_eq_true, Bool.not_eq_true',
      List.append_eq, List.any_append, Bool.or_eq_false_iff]
    refine ⟨⟨h1.1, ?_⟩, ih'⟩
    simp only [List.any_eq_false, List.mem_singleton, anchorEq, Bool.and_eq_true,
      beq_iff_eq, not_and, forall_eq]
    intro hx hy
    exact h2t ⟨hx, hy⟩

theorem disjointReal_snoc {w : World} {A : List TokenObj} {tok : TokenObj}
    (h1 : disjointReal w A = true)
    (h2 : ∀ u ∈ realFires w, ¬(u.x = tok.x ∧ u.y = tok.y)) :
    disjointReal w (A ++ [tok]) = true := by
  simp only [disjointReal, Bool.not_eq_true', List.any_append, Bool.or_eq_false_iff] at h1 ⊢
  refine ⟨h1, ?_⟩
  simp only [List.any_cons, List.any_nil, Bool.or_false]
  simp only [List.any_eq_false, anchorEq, Bool.and_eq_true, beq_iff_eq, not_and]
  intro u hu hx hy
  exact h2 u hu ⟨hx.symm, hy.symm⟩

/-- One candidate evaluation preserves the no-double-ignition invariant:
a cell whose anchor is already that of a real fire or of an accumulated
pending fire is filtered out by `isBurning`, so `light` only ever appends a
fresh anchor. -/
theorem spreadToCell_pendingInv (g : Grid) (w : World) (ch : Chance) (rng : Nat → Nat)
    {s : WFState} {i : Nat} (c : Cell)
    (h : pendingInv w s = true) :
    pendingInv w (spreadToCell g w ch rng (s, i) c).1 = true := by
  by_cases hf : isFlammable g w s c = true
  · by_cases hr : jsLt (rollTotalOf ch.formula (rng i)) ch.target = true
    · rw [spreadToCell_roll_fail hf hr]
      exact h
    · rw [spreadToCell_roll_light hf (Bool.not_eq_true _ ▸ hr)]
      have hb : isBurning g w s c = false := (isFlammable_true_iff.mp hf).1
      have hnb : ∀ t ∈ fires w s, ¬(t.x = (g.pixelPos c).1 ∧ t.y = (g.pixelPos c).2) := by
        intro t ht hc
        exact absurd (isBurning_iff.mpr ⟨t, ht, hc⟩) (by simp [hb])
      rw [light_eq]
      simp only [pendingInv, Bool.and_eq_true] at h ⊢
      constructor
      · exact noDupAnchors_snoc h.1
          (fun t ht => hnb t (List.mem_append.mpr (Or.inr ht)))
      · exact disjointReal_snoc h.2
          (fun u hu => hnb u (List.mem_append.mpr (Or.inl hu)))
  · rw [spreadToCell_not_flammable (Bool.not_eq_true _ ▸ hf)]
    exact h

/-- The whole evaluation phase preserves the no-double-ignition invariant. -/
theorem runSpreadEval_pendingInv (g : Grid) (w : World) (ch : Chance) (rng : Nat → Nat)
    (s : WFState) (i : Nat) (h : pendingInv w s = true) :
    pendingInv w (runSpreadEval g w ch rng s i).1 = true := by
  refine foldl_preserve (P := fun si => pendingInv w si.1 = true) _ ?_ (realFires w) (s, i) h
  intro si f hsi
  unfold spreadToNeighbors
  refine foldl_preserve (P := fun si => pendingInv w si.1 = true) _ ?_ _ si hsi
  intro sj a hsj
  obtain ⟨s', i'⟩ := sj
  exact spreadToCell_pendingInv g w ch rng a hsj

/-- C4: no double ignition. (a) Each single candidate evaluation preserves
the invariant that the pending set's anchors are pairwise distinct and
disjoint from the real fires' anchors (membership is checked against real
fires unioned with the accumulated pending set, so it holds at every point
of the step); (b) hence the whole evaluation phase preserves it; (c) after
a `spread()` whose commit succeeds, the pending set is empty. -/
theorem no_double_ignition :
    (∀ (g : Grid) (w : World) (ch : Chance) (rng : Nat → Nat) (s : WFState)
        (i : Nat) (c : Cell), pendingInv w s = true →
        pendingInv w (spreadToCell g w ch rng (s, i) c).1 = true) ∧
    (∀ (g : Grid) (w : World) (ch : Chance) (rng : Nat → Nat) (s : WFState)
        (i : Nat), pendingInv w s = true →
        pendingInv w (evalState g w ch rng s i) = true) ∧
    (∀ (g : Grid) (cm : World → List TokenObj → Bool × World) (rng : Nat → Nat)
        (w : World) (s : WFState) (i : Nat) (ch : Chance),
        s.spreading = false → (spread g cm rng w s i ch).ok = true →
        (spread g cm rng w s i ch).state.newFires = []) := by
  refine ⟨fun g w ch rng s i c h => spreadToCell_pendingInv g w ch rng c h,
    fun g w ch rng s i h => runSpreadEval_pendingInv g w ch rng _ i h, ?_⟩
  intro g cm rng w s i ch h0 hok
  by_cases hc : (cm w (evalState g w ch rng s i).newFires).1 = true
  · rw [spread_commit_ok h0 hc]
  · rw [spread_commit_fail h0 (Bool.not_eq_true _ ▸ hc)] at hok
    cases hok

set_option maxRecDepth 200000 in
/-- Witness for C4 on the concrete two-fire scenario. -/
theorem no_double_ignition_witness :
    pendingInv wTwoFires
      (spreadToCell sqGrid wTwoFires chHalf (fun i => i) (sTwoFires, 0) (0, 1)).1 = true ∧
    pendingInv wTwoFires
      (evalState sqGrid wTwoFires chHalf (fun i => i) sTwoFires 0) = true ∧
    (spread sqGrid cmOK (fun i => i) wTwoFires sTwoFires 0 chHalf).state.newFires = [] := by
  refine ⟨no_double_ignition.1 sqGrid wTwoFires chHalf (fun i => i) sTwoFires 0 (0, 1)
      (by decide),
    no_double_ignition.2.1 sqGrid wTwoFires chHalf (fun i => i) sTwoFires 0 (by decide),
    no_double_ignition.2.2 sqGrid cmOK (fun i => i) wTwoFires sTwoFires 0 chHalf rfl rfl⟩

set_option maxRecDepth 200000 in
/-- C2 counterexample: in the two-fire scenario the cell `(0,1)` is the
only candidate that ever passes the flammability gate (the filter over all
examined neighbors picks exactly it, once proposed by each fire), yet the
step consumes TWO randomizer draws: the first roll for it fails and the
second burning neighbor rolls for the very same cell again. Candidates are
not deduplicated before rolling. -/
theorem double_roll_counterexample :
    (spread sqGrid cmOK (fun i => i) wTwoFires sTwoFires 0 chHalf).rngIdx = 2 ∧
    (spread sqGrid cmOK (fun i => i) wTwoFires sTwoFires 0 chHalf).batch =
      some [⟨50, 0, true⟩] ∧
    ((sqGrid.neighbors (0, 0) ++ sqGrid.neighbors (0, 2)).filter
        (fun c => isFlammable sqGrid wTwoFires sTwoFires c)) = [(0, 1), (0, 1)] := by
  refine ⟨?_, ?_, by decide⟩ <;> rfl

/-- C2 (amended): within one step a candidate cell is rolled once per
proposing burning neighbor for as long as every earlier roll for it failed;
a cell that is burning — in particular one whose roll succeeded, since
`light` puts it into `newFires` — is skipped without consuming a draw, so
only the draw count up to and including the first success is one per cell. -/
theorem roll_repeats_until_success :
    (∀ (g : Grid) (w : World) (ch : Chance) (rng : Nat → Nat) (s : WFState)
        (i : Nat) (c : Cell), isBurning g w s c = true →
        spreadToCell g w ch rng (s, i) c = (s, i)) ∧
    (∀ (g : Grid) (w : World) (s : WFState) (c : Cell),
        isBurning g w (light g s c) c = true) := by
  refine ⟨?_, fun g w s c => isBurning_light_self⟩
  intro g w ch rng s i c hb
  exact spreadToCell_not_flammable (by simp [isFlammable, hb])

/-- Witness for the amended C2: the already-burning origin cell is skipped
with no draw, and a lit cell counts as burning. -/
theorem roll_repeats_until_success_witness :
    spreadToCell sqGrid wTwoFires chHalf (fun i => i) (sTwoFires, 0) (0, 0) =
      (sTwoFires, 0) ∧
    isBurning sqGrid wTwoFires (light sqGrid sTwoFires (0, 1)) (0, 1) = true :=
  ⟨roll_repeats_until_success.1 sqGrid wTwoFires chHalf (fun i => i) sTwoFires 0 (0, 0)
      (by decide),
    roll_repeats_until_success.2 sqGrid wTwoFires sTwoFires (0, 1)⟩

/-- Witness for the amended C1 at a concrete failing commit. -/
theorem spread_commit_failure_guard_stays_witness :
    (spread sqGrid cmFail (fun i => i) wTwoFires sTwoFires 0 chHalf).ok = false ∧
    (spread sqGrid cmFail (fun i => i) wTwoFires sTwoFires 0 chHalf).state.spreading = true ∧
    spread sqGrid cmOK (fun i => i) wTwoFires
        (spread sqGrid cmFail (fun i => i) wTwoFires sTwoFires 0 chHalf).state 0 chHalf =
      ⟨wTwoFires, (spread sqGrid cmFail (fun i => i) wTwoFires sTwoFires 0 chHalf).state,
       0, none, true⟩ := by
  have h := spread_commit_failure_guard_stays sqGrid cmFail (fun i => i) wTwoFires
    sTwoFires 0 chHalf rfl rfl
  exact ⟨h.1, h.2.1, h.2.2 sqGrid cmOK (fun i => i) wTwoFires 0 chHalf⟩

theorem parseFormula_pos {str : String} {fm : Formula}
    (h : parseFormula str = some fm) : 1 ≤ fm.num ∧ 1 ≤ fm.faces := by
  unfold parseFormula at h
  split at h
  next n f hsp =>
    split at h
    next nn ff hn hf =>
      by_cases hz : nn = 0 ∨ ff = 0
      · rw [if_pos hz] at h
        cases h
      · rw [if_neg hz] at h
        cases h
        push_neg at hz
        exact ⟨by show 1 ≤ nn; omega, by show 1 ≤ ff; omega⟩
    next => cases h
  next => cases h

theorem rollTotal_ge (fm : Formula) (e : Nat) : fm.num ≤ rollTotal fm e :=
  Nat.le_add_right _ _

theorem rollTotal_le {fm : Formula} (h : 1 ≤ fm.faces) (e : Nat) :
    rollTotal fm e ≤ fm.num * fm.faces := by
  have hm : e % (fm.num * (fm.faces - 1) + 1) ≤ fm.num * (fm.faces - 1) :=
    Nat.lt_succ_iff.mp (Nat.mod_lt e (Nat.succ_pos _))
  have hprod : fm.num * (fm.faces - 1) + fm.num = fm.num * fm.faces := by
    obtain ⟨k, hk⟩ : ∃ k, fm.faces = k + 1 := ⟨fm.faces - 1, by omega⟩
    rw [hk]
    simp [Nat.mul_succ]
  unfold rollTotal
  omega

theorem jsLt_some {total : Nat} {tgt : JSVal} {T : Int}
    (h : jsToNumber tgt = some T) :
    jsLt total tgt = decide ((total : Int) < T) := by
  unfold jsLt
  rw [h]

/-- Under a chance every roll of which meets the target, every flammable
neighbor of every real fire is burning once the evaluation phase is done. -/
theorem certain_spread_aux (g : Grid) (w : World) (ch : Chance) (rng : Nat → Nat)
    (hcert : ∀ e, jsLt (rollTotalOf ch.formula e) ch.target = false)
    (s : WFState) (i : Nat) {f : TokenObj} (hf : f ∈ realFires w) {c : Cell}
    (hc : c ∈ g.neighbors (g.gridPos (f.x, f.y)))
    (harea : isInFlammableArea g w c = true) :
    isBurning g w (runSpreadEval g w ch rng s i).1 c = true := by
  have hpresC : ∀ (si : WFState × Nat) (a : Cell),
      isBurning g w si.1 c = true →
      isBurning g w (spreadToCell g w ch rng si a).1 c = true := by
    intro si a hB
    obtain ⟨l, hl, -⟩ := spreadToCell_extendsFlam g w ch rng si a
    rw [hl]
    exact isBurning_extend l hB
  have hxC : ∀ si : WFState × Nat,
      isBurning g w (spreadToCell g w ch rng si c).1 c = true := by
    intro si
    obtain ⟨s', i'⟩ := si
    by_cases hfl : isFlammable g w s' c = true
    · rw [spreadToCell_roll_light hfl (hcert _)]
      exact isBurning_light_self
    · have hbs : isBurning g w s' c = true := by
        by_contra hbb
        exact hfl (isFlammable_true_iff.mpr ⟨Bool.not_eq_true _ ▸ hbb, harea⟩)
      rw [spreadToCell_not_flammable (Bool.not_eq_true _ ▸ hfl)]
      exact hbs
  have hpresN : ∀ (si : WFState × Nat) (t : TokenObj),
      isBurning g w si.1 c = true →
      isBurning g w (spreadToNeighbors g w ch rng si t).1 c = true := by
    intro si t hB
    obtain ⟨l, hl, -⟩ := spreadToNeighbors_extendsFlam g w ch rng si t
    rw [hl]
    exact isBurning_extend l hB
  have hxN : ∀ si : WFState × Nat,
      isBurning g w (spreadToNeighbors g w ch rng si f).1 c = true := by
    intro si
    unfold spreadToNeighbors
    exact foldl_establish (B := fun sj => isBurning g w sj.1 c = true)
      _ hpresC c hxC _ si hc
  exact foldl_establish (B := fun sj => isBurning g w sj.1 c = true)
    _ hpresN f hxN (realFires w) (s, i) hf

/-- Under a chance every roll of which misses the target, the evaluation
phase adds nothing to `newFires`. -/
theorem never_spread_aux (g : Grid) (w : World) (ch : Chance) (rng : Nat → Nat)
    (hfail : ∀ e, jsLt (rollTotalOf ch.formula e) ch.target = true)
    (s : WFState) (i : Nat) :
    (runSpreadEval g w ch rng s i).1.newFires = s.newFires := by
  have hstepC : ∀ (si : WFState × Nat) (a : Cell),
      si.1.newFires = s.newFires →
      (spreadToCell g w ch rng si a).1.newFires = s.newFires := by
    intro si a hsi
    obtain ⟨s', i'⟩ := si
    by_cases hfl : isFlammable g w s' a = true
    · rw [spreadToCell_roll_fail hfl (hfail _)]
      exact hsi
    · rw [spreadToCell_not_flammable (Bool.not_eq_true _ ▸ hfl)]
      exact hsi
  refine foldl_preserve (P := fun si => si.1.newFires = s.newFires) _ ?_ (realFires w)
    (s, i) rfl
  intro si t hsi
  unfold spreadToNeighbors
  exact foldl_preserve (P := fun si => si.1.newFires = s.newFires) _ hstepC _ si hsi

/-- C5: (a) an eligible (flammable, not-burning) candidate is lit by
`spreadToCell` iff the drawn total is `≥` the target; (b) a target above
the formula's maximum total ignites nothing in a whole evaluation phase;
(c) a target `≤ 0` ignites every eligible flammable neighbor of every real
fire. Neither degenerate target is an error. -/
theorem ignition_threshold :
    (∀ (g : Grid) (w : World) (ch : Chance) (rng : Nat → Nat) (s : WFState)
        (i : Nat) (c : Cell) (T : Int), jsToNumber ch.target = some T →
        isFlammable g w s c = true →
        (spreadToCell g w ch rng (s, i) c = (light g s c, i + 1) ↔
          T ≤ (rollTotalOf ch.formula (rng i) : Int))) ∧
    (∀ (g : Grid) (w : World) (ch : Chance) (rng : Nat → Nat) (s : WFState)
        (i : Nat) (fm : Formula) (T : Int),
        parseFormula ch.formula = some fm → jsToNumber ch.target = some T →
        (fm.num * fm.faces : Int) < T →
        (runSpreadEval g w ch rng s i).1.newFires = s.newFires) ∧
    (∀ (g : Grid) (w : World) (ch : Chance) (rng : Nat → Nat) (s : WFState)
        (i : Nat) (T : Int), jsToNumber ch.target = some T → T ≤ 0 →
        ∀ f ∈ realFires w, ∀ c ∈ g.neighbors (g.gridPos (f.x, f.y)),
          isInFlammableArea g w c = true →
          isBurning g w (runSpreadEval g w ch rng s i).1 c = true) := by
  refine ⟨?_, ?_, ?_⟩
  · intro g w ch rng s i c T hT hfl
    constructor
    · intro heq
      by_contra hlt
      have hlt' : ((rollTotalOf ch.formula (rng i)) : Int) < T := by omega
      have hjs : jsLt (rollTotalOf ch.formula (rng i)) ch.target = true := by
        rw [jsLt_some hT]
        exact decide_eq_true hlt'
      rw [spreadToCell_roll_fail hfl hjs] at heq
      have hlen := congrArg (fun p => p.1.newFires.length) heq
      simp only [light_eq, List.length_append, List.length_singleton] at hlen
      omega
    · intro hge
      apply spreadToCell_roll_light hfl
      rw [jsLt_some hT]
      exact decide_eq_false (Int.not_lt.mpr hge)
  · intro g w ch rng s i fm T hpf hT hbig
    apply never_spread_aux
    intro e
    rw [jsLt_some hT]
    apply decide_eq_true
    have hred : rollTotalOf ch.formula e = rollTotal fm e := by
      unfold rollTotalOf
      rw [hpf]
    rw [hred]
    have hle := rollTotal_le (parseFormula_pos hpf).2 e
    calc ((rollTotal fm e : Nat) : Int) ≤ ((fm.num * fm.faces : Nat) : Int) := by
          exact_mod_cast hle
      _ = (fm.num * fm.faces : Int) := by push_cast; ring
      _ < T := hbig
  · intro g w ch rng s i T hT hle f hf c hc harea
    refine certain_spread_aux g w ch rng ?_ s i hf hc harea
    intro e
    rw [jsLt_some hT]
    apply decide_eq_false
    exact Int.not_lt.mpr (hle.trans (Int.natCast_nonneg _))

/-- Witness for C5: the threshold iff at a concrete eligible cell, zero
spread under `1d6` vs target 7, certain spread under `1d6` vs target 0. -/
theorem ignition_threshold_witness :
    (spreadToCell sqGrid wTwoFires chHalf (fun i => i) (sTwoFires, 1) (0, 1) =
        (light sqGrid sTwoFires (0, 1), 2) ↔
      (2 : Int) ≤ (rollTotalOf chHalf.formula 1 : Int)) ∧
    (runSpreadEval sqGrid wTwoFires chImpossible (fun i => i) sTwoFires 0).1.newFires =
      sTwoFires.newFires ∧
    isBurning sqGrid wTwoFires
      (runSpreadEval sqGrid wTwoFires chZero (fun i => i) sTwoFires 0).1 (0, 1) = true :=
  ⟨ignition_threshold.1 sqGrid wTwoFires chHalf (fun i => i) sTwoFires 1 (0, 1) 2
      rfl (by decide),
    ignition_threshold.2.1 sqGrid wTwoFires chImpossible (fun i => i) sTwoFires 0
      ⟨1, 6⟩ 7 (by decide) rfl (by decide),
    ignition_threshold.2.2 sqGrid wTwoFires chZero (fun i => i) sTwoFires 0 0
      rfl (by decide) ⟨0, 0, true⟩ (by decide) (0, 1) (by decide) (by decide)⟩

/-- C6: `areaContains` is, as a function of the drawing's rectangle and
the cell's `gridSize` square, exactly the generic four-condition exclusion
test on rectangles; that test is symmetric under swapping the rectangles;
and it holds iff neither rectangle is strictly separated to the left,
right, above or below the other, a touching shared edge counting as
separation. -/
theorem containment_exclusion_test :
    (∀ (g : Grid) (area : AreaObj) (c : Cell),
        areaContains g area c = rectsIntersect (areaRect area) (cellRect g c)) ∧
    (∀ r1 r2 : Rect, rectsIntersect r1 r2 = rectsIntersect r2 r1) ∧
    (∀ r1 r2 : Rect, rectsIntersect r1 r2 = true ↔
        ¬(leftSep r1 r2 ∨ leftSep r2 r1 ∨ aboveSep r1 r2 ∨ aboveSep r2 r1)) := by
  refine ⟨fun g area c => rfl, ?_, ?_⟩
  · intro r1 r2
    simp only [rectsIntersect]
    rw [(by decide : ∀ a b c d : Bool, (a || b || c || d) = (b || a || d || c))]
  · intro r1 r2
    simp only [rectsIntersect, leftSep, aboveSep, Bool.not_eq_true', Bool.or_eq_false_iff,
      decide_eq_false_iff_not, not_or, ge_iff_le]
    omega

/-- Witness for C6: concrete instances, including an edge-touching pair of
squares (sharing the border line `x = 50`). -/
theorem containment_exclusion_test_witness :
    areaContains sqGrid ⟨50, 0, 50, 50, true⟩ (1, 1) =
      rectsIntersect (areaRect ⟨50, 0, 50, 50, true⟩) (cellRect sqGrid (1, 1)) ∧
    rectsIntersect ⟨0, 0, 50, 50⟩ ⟨50, 0, 50, 50⟩ =
      rectsIntersect ⟨50, 0, 50, 50⟩ ⟨0, 0, 50, 50⟩ ∧
    (rectsIntersect ⟨0, 0, 50, 50⟩ ⟨50, 0, 50, 50⟩ = true ↔
      ¬(leftSep ⟨0, 0, 50, 50⟩ ⟨50, 0, 50, 50⟩ ∨ leftSep ⟨50, 0, 50, 50⟩ ⟨0, 0, 50, 50⟩ ∨
        aboveSep ⟨0, 0, 50, 50⟩ ⟨50, 0, 50, 50⟩ ∨ aboveSep ⟨50, 0, 50, 50⟩ ⟨0, 0, 50, 50⟩)) :=
  ⟨containment_exclusion_test.1 sqGrid ⟨50, 0, 50, 50, true⟩ (1, 1),
    containment_exclusion_test.2.1 ⟨0, 0, 50, 50⟩ ⟨50, 0, 50, 50⟩,
    containment_exclusion_test.2.2 ⟨0, 0, 50, 50⟩ ⟨50, 0, 50, 50⟩⟩

/-- C9: the constructor default chance is `{ formula := "1d1", target :=
"1" }` with the target the STRING `"1"`; a `1d1` roll always totals 1; the
JS comparison `1 < "1"` coerces the string and yields `false`; hence under
the default chance every eligible flammable non-burning candidate is lit,
and after a full evaluation phase every flammable neighbor of a real fire
burns — certain spread. -/
theorem default_chance_certain_spread :
    defaultChance.target = JSVal.str "1" ∧
    (∀ tok : TokenObj, (mkWildfireDefault tok).chance = defaultChance) ∧
    (∀ e : Nat, rollTotalOf defaultChance.formula e = 1) ∧
    (∀ e : Nat, jsLt (rollTotalOf defaultChance.formula e) defaultChance.target = false) ∧
    (∀ (g : Grid) (w : World) (rng : Nat → Nat) (s : WFState) (i : Nat) (c : Cell),
        isFlammable g w s c = true →
        spreadToCell g w defaultChance rng (s, i) c = (light g s c, i + 1)) ∧
    (∀ (g : Grid) (w : World) (rng : Nat → Nat) (s : WFState) (i : Nat),
        ∀ f ∈ realFires w, ∀ c ∈ g.neighbors (g.gridPos (f.x, f.y)),
          isInFlammableArea g w c = true →
          isBurning g w (runSpreadEval g w defaultChance rng s i).1 c = true) := by
  have h3 : ∀ e : Nat, rollTotalOf defaultChance.formula e = 1 := by
    intro e
    have hp : parseFormula "1d1" = some ⟨1, 1⟩ := by decide
    show rollTotalOf "1d1" e = 1
    unfold rollTotalOf
    rw [hp]
    simp [rollTotal, Nat.mod_one]
  have h4 : ∀ e : Nat,
      jsLt (rollTotalOf defaultChance.formula e) defaultChance.target = false := by
    intro e
    rw [h3 e]
    decide
  refine ⟨rfl, fun tok => rfl, h3, h4, ?_, ?_⟩
  · intro g w rng s i c hfl
    exact spreadToCell_roll_light hfl (h4 _)
  · intro g w rng s i f hf c hc harea
    exact certain_spread_aux g w defaultChance rng h4 s i hf hc harea

set_option maxRecDepth 200000 in
/-- Witness for C9 on the two-fire scenario. -/
theorem default_chance_certain_spread_witness :
    spreadToCell sqGrid wTwoFires defaultChance (fun i => i) (sTwoFires, 0) (0, 1) =
      (light sqGrid sTwoFires (0, 1), 1) ∧
    isBurning sqGrid wTwoFires
      (runSpreadEval sqGrid wTwoFires defaultChance (fun i => i) sTwoFires 0).1
      (0, 1) = true :=
  ⟨default_chance_certain_spread.2.2.2.2.1 sqGrid wTwoFires (fun i => i) sTwoFires 0
      (0, 1) (by decide),
    default_chance_certain_spread.2.2.2.2.2 sqGrid wTwoFires (fun i => i) sTwoFires 0
      ⟨0, 0, true⟩ (by decide) (0, 1) (by decide) (by decide)⟩

set_option maxRecDepth 200000 in
/-- C10: `isBurning` tests exact anchor equality — it is true iff some
fire's `x`/`y` equal the cell's top-left pixel exactly; and concretely, a
fire token anchored at pixel `(60,60)`, strictly inside cell `(1,1)`
(pixels `[50,100)²`) but not at its corner, does not count as burning that
cell, which is therefore ignited again by `spreadToCell`. -/
theorem isBurning_exact_anchor :
    (∀ (g : Grid) (w : World) (s : WFState) (c : Cell),
        isBurning g w s c = true ↔
          ∃ t ∈ fires w s, t.x = (g.pixelPos c).1 ∧ t.y = (g.pixelPos c).2) ∧
    isBurning sqGrid wInterior sInterior (1, 1) = false ∧
    spreadToCell sqGrid wInterior defaultChance (fun i => i) (sInterior, 0) (1, 1) =
      (light sqGrid sInterior (1, 1), 1) :=
  ⟨fun g w s c => isBurning_iff, by decide, by decide⟩

/-- Witness for C10: the anchor-equality characterization decides a
concrete burning cell. -/
theorem isBurning_exact_anchor_witness :
    isBurning sqGrid wTwoFires sTwoFires (0, 0) = true :=
  (isBurning_exact_anchor.1 sqGrid wTwoFires sTwoFires (0, 0)).mpr
    ⟨⟨0, 0, true⟩, by decide, by decide, by decide⟩

theorem lookup_cons_self {γ : Type} {a : Nat} {x : γ} {l : List (Nat × γ)} :
    ((a, x) :: l).lookup a = some x := by
  simp [List.lookup]

theorem lookup_cons_ne {γ : Type} {a k : Nat} {x : γ} {l : List (Nat × γ)}
    (hne : a ≠ k) : ((k, x) :: l).lookup a = l.lookup a := by
  have hb : (a == k) = false := beq_eq_false_iff_ne.mpr hne
  simp [List.lookup, hb]

theorem lookup_some_mem {γ : Type} {l : List (Nat × γ)} {a : Nat} {x : γ}
    (h : l.lookup a = some x) : (a, x) ∈ l := by
  induction l with
  | nil => cases h
  | cons p rest ih =>
    obtain ⟨k, y⟩ := p
    by_cases hk : a = k
    · subst hk
      rw [lookup_cons_self] at h
      cases h
      exact List.mem_cons_self _ _
    · rw [lookup_cons_ne hk] at h
      exact List.mem_cons_of_mem _ (ih h)

theorem lookup_mutate_ne {γ : Type} {l : List (Nat × γ)} {a b : Nat}
    (f : γ → γ) (hne : a ≠ b) :
    (l.map (fun p => if p.1 == b then (p.1, f p.2) else p)).lookup a = l.lookup a := by
  induction l with
  | nil => rfl
  | cons p rest ih =>
    obtain ⟨k, y⟩ := p
    simp only [List.map_cons]
    by_cases hk : k = b
    · subst hk
      simp only [beq_self_eq_true, if_true]
      rw [lookup_cons_ne hne, lookup_cons_ne hne, ih]
    · have hcond : (((k, y).1 == b)) = false := by simp [hk]
      rw [hcond]
      simp only [Bool.false_eq_true, if_false]
      by_cases ha : a = k
      · subst ha
        rw [lookup_cons_self, lookup_cons_self]
      · rw [lookup_cons_ne ha, lookup_cons_ne ha, ih]

theorem resolveTok_dupHeap {h : Heap} {v : TokenValue} :
    resolveTok (dupHeap h v) (h.next + 1) = some v := by
  simp [resolveTok, dupHeap, lookup_cons_self]

theorem duplicateTok_eq {h : Heap} {a : Nat} {v : TokenValue}
    (hv : resolveTok h a = some v) :
    duplicateTok h a = some (dupHeap h v, h.next + 1) := by
  simp [duplicateTok, hv]

theorem resolveTok_mutateTokenAt_ne {h : Heap} {a b : Nat} (f : TokenNode → TokenNode)
    (hne : a ≠ b) : resolveTok (mutateTokenAt h b f) a = resolveTok h a := by
  unfold resolveTok mutateTokenAt
  dsimp only
  rw [lookup_mutate_ne f hne]

theorem resolveTok_mutateFlagsAt_ne {h : Heap} {a b : Nat} {n : TokenNode}
    (f : FlagsObj → FlagsObj) (hn : h.tokens.lookup a = some n)
    (hne : n.flagsRef ≠ b) :
    resolveTok (mutateFlagsAt h b f) a = resolveTok h a := by
  unfold resolveTok mutateFlagsAt
  dsimp only
  rw [hn]
  dsimp only
  rw [lookup_mutate_ne f hne]

theorem dupHeap_tokens_lookup_self {h : Heap} {v : TokenValue} :
    (dupHeap h v).tokens.lookup (h.next + 1) =
      some ⟨v.img, v.name, v.x, v.y, h.next⟩ := by
  simp [dupHeap, lookup_cons_self]

/-- Resolving a pre-existing root is unaffected by materializing a copy,
as long as the root and its flags reference differ from the two fresh
addresses. -/
theorem resolveTok_dupHeap_old {h : Heap} {v : TokenValue} {a : Nat} {n : TokenNode}
    (hn : h.tokens.lookup a = some n) (ha : a ≠ h.next + 1)
    (hf : n.flagsRef ≠ h.next) :
    resolveTok (dupHeap h v) a = resolveTok h a := by
  unfold resolveTok dupHeap
  dsimp only
  rw [lookup_cons_ne ha, hn]
  dsimp only
  rw [lookup_cons_ne hf]

/-- C8: template isolation. Writing the template (`token` setter at
construction) deep-copies the source's data to fresh addresses; the stored
snapshot resolves to the source's value at set time; the source's own
object graph lives strictly below the allocation mark, and mutating any of
its addresses — or any address other than the snapshot's two cells —
leaves the snapshot's value intact; each read (`token` getter) hands out a
fresh deep copy, and mutating the returned copy leaves the stored template
and every later read unchanged. -/
theorem template_isolation (h : Heap) (src : Nat) (v : TokenValue) (b b2 : Nat)
    (hwf : h.wf) (hv : resolveTok h src = some v)
    (hb : b < h.next ∨ h.next + 2 ≤ b)
    (hb2 : b2 ≠ h.next + 1 ∧ b2 ≠ h.next) :
    setTokenAccessor h src = some (dupHeap h v, h.next + 1) ∧
    resolveTok (dupHeap h v) (h.next + 1) = some v ∧
    (src < h.next ∧ ∀ n, h.tokens.lookup src = some n → n.flagsRef < h.next) ∧
    (∀ fT, resolveTok (mutateTokenAt (dupHeap h v) b fT) (h.next + 1) = some v) ∧
    (∀ fF, resolveTok (mutateFlagsAt (dupHeap h v) b fF) (h.next + 1) = some v) ∧
    getTokenAccessor (dupHeap h v) (h.next + 1) =
      some (dupHeap (dupHeap h v) v, h.next + 3) ∧
    resolveTok (dupHeap (dupHeap h v) v) (h.next + 3) = some v ∧
    (∀ fT, resolveTok (mutateTokenAt (dupHeap (dupHeap h v) v) b2 fT)
      (h.next + 1) = some v) ∧
    (∀ fF, resolveTok (mutateFlagsAt (dupHeap (dupHeap h v) v) b2 fF)
      (h.next + 1) = some v) ∧
    (∀ fT, getTokenAccessor
        (mutateTokenAt (dupHeap (dupHeap h v) v) (h.next + 3) fT) (h.next + 1) =
      some (dupHeap (mutateTokenAt (dupHeap (dupHeap h v) v) (h.next + 3) fT) v,
        h.next + 5)) := by
  have hlookup : ∃ n, h.tokens.lookup src = some n := by
    unfold resolveTok at hv
    rcases hl : h.tokens.lookup src with - | n
    · rw [hl] at hv
      cases hv
    · exact ⟨n, rfl⟩
  have hsrc : src < h.next := by
    obtain ⟨n, hn⟩ := hlookup
    exact hwf.1 (src, n) (lookup_some_mem hn)
  have hflagsrc : ∀ n, h.tokens.lookup src = some n → n.flagsRef < h.next := by
    intro n hn
    unfold resolveTok at hv
    rw [hn] at hv
    dsimp only at hv
    rcases hf : h.flagObjs.lookup n.flagsRef with - | fv
    · rw [hf] at hv
      cases hv
    · exact hwf.2 (n.flagsRef, fv) (lookup_some_mem hf)
  have hn2 : (dupHeap (dupHeap h v) v).tokens.lookup (h.next + 1) =
      some ⟨v.img, v.name, v.x, v.y, h.next⟩ := by
    unfold dupHeap
    dsimp only
    rw [lookup_cons_ne (by omega)]
    exact dupHeap_tokens_lookup_self
  have hres2 : resolveTok (dupHeap (dupHeap h v) v) (h.next + 1) = some v := by
    rw [resolveTok_dupHeap_old dupHeap_tokens_lookup_self
      (show h.next + 1 ≠ h.next + 2 + 1 by omega)
      (show h.next ≠ h.next + 2 by omega)]
    exact resolveTok_dupHeap
  refine ⟨duplicateTok_eq hv, resolveTok_dupHeap, ⟨hsrc, hflagsrc⟩, ?_, ?_, ?_, ?_, ?_, ?_, ?_⟩
  · intro fT
    rw [resolveTok_mutateTokenAt_ne fT (by omega)]
    exact resolveTok_dupHeap
  · intro fF
    rw [resolveTok_mutateFlagsAt_ne fF dupHeap_tokens_lookup_self
      (show (⟨v.img, v.name, v.x, v.y, h.next⟩ : TokenNode).flagsRef ≠ b by
        show h.next ≠ b
        omega)]
    exact resolveTok_dupHeap
  · exact duplicateTok_eq resolveTok_dupHeap
  · exact resolveTok_dupHeap
  · intro fT
    rw [resolveTok_mutateTokenAt_ne fT (Ne.symm hb2.1)]
    exact hres2
  · intro fF
    rw [resolveTok_mutateFlagsAt_ne fF hn2
      (show (⟨v.img, v.name, v.x, v.y, h.next⟩ : TokenNode).flagsRef ≠ b2 by
        show h.next ≠ b2
        exact Ne.symm hb2.2)]
    exact hres2
  · intro fT
    have hres3 : resolveTok
        (mutateTokenAt (dupHeap (dupHeap h v) v) (h.next + 3) fT) (h.next + 1) = some v := by
      rw [resolveTok_mutateTokenAt_ne fT (by omega)]
      exact hres2
    exact duplicateTok_eq hres3

/-- Witness for C8 on the concrete one-token heap: mutating the source's
flags object (address 0) and mutating the read-out copy (token node at
address 4) both leave the stored template (address 3) resolving to the
original snapshot. -/
theorem template_isolation_witness :
    setTokenAccessor exHeap 1 =
      some (dupHeap exHeap ⟨"fire.png", "Fire", 0, 0, ⟨true⟩⟩, 3) ∧
    resolveTok (mutateFlagsAt (dupHeap exHeap ⟨"fire.png", "Fire", 0, 0, ⟨true⟩⟩) 0
        (fun _ => ⟨false⟩)) 3 =
      some ⟨"fire.png", "Fire", 0, 0, ⟨true⟩⟩ ∧
    resolveTok (mutateTokenAt
        (dupHeap (dupHeap exHeap ⟨"fire.png", "Fire", 0, 0, ⟨true⟩⟩)
          ⟨"fire.png", "Fire", 0, 0, ⟨true⟩⟩) 4
        (fun n => { n with img := "mud.png" })) 3 =
      some ⟨"fire.png", "Fire", 0, 0, ⟨true⟩⟩ := by
  have hwf : exHeap.wf := by
    constructor <;> intro p hp <;>
      simp only [exHeap, List.mem_singleton] at hp <;> subst hp <;> decide
  have ht := template_isolation exHeap 1 ⟨"fire.png", "Fire", 0, 0, ⟨true⟩⟩ 0 4
    hwf rfl (Or.inl (by decide)) ⟨by decide, by decide⟩
  exact ⟨ht.1, ht.2.2.2.2.1 (fun _ => ⟨false⟩),
    ht.2.2.2.2.2.2.2.1 (fun n => { n with img := "mud.png" })⟩

end Wildfire
